import Mathlib

/-!
# Verification of the AlChemy reaction/population engine

Shallow embedding of `src/soup.rs` and `src/analysis.rs` of the
functional-supercollider repository.  Lambda terms use the 1-indexed
de Bruijn representation of the external `lambda_calculus` crate; the
crate itself is outside the repository, so its operations (`reduce`,
`is_isomorphic_to`, `has_free_variables`, `max_depth`) are modelled from
the specification's Term Engine interface (§6).  Everything inside
`soup.rs` / `analysis.rs` is translated directly from the source.
-/

namespace Supercollider

/-- De Bruijn lambda term, 1-indexed exactly as in the `lambda_calculus`
crate: `var 1` refers to the innermost enclosing abstraction. -/
inductive Term where
  | var : Nat → Term
  | abs : Term → Term
  | app : Term → Term → Term
deriving DecidableEq, Repr, Inhabited

namespace Term

/-- Modelled from the spec: shifting of free de Bruijn indices used by beta
reduction in the external Term Engine; indices above the cutoff `c` are
raised by `d`. -/
def shift (d : Nat) (c : Nat) : Term → Term
  | var n => if n > c then var (n + d) else var n
  | abs t => abs (shift d (c + 1) t)
  | app a b => app (shift d c a) (shift d c b)

/-- Modelled from the spec: capture-avoiding substitution of `u` for index
`k` (with the usual decrement of larger free indices), as performed by the
external Term Engine's beta step. -/
def substVar (k : Nat) (u : Term) : Term → Term
  | var n => if n = k then shift (k - 1) 0 u else if n > k then var (n - 1) else var n
  | abs t => abs (substVar (k + 1) u t)
  | app a b => app (substVar k u a) (substVar k u b)

/-- Modelled from the spec: one step of the fixed, documented reduction
strategy (leftmost-outermost) used by the Term Engine; `none` when the term
is in normal form. -/
def reductionStep : Term → Option Term
  | var _ => none
  | abs t => (reductionStep t).map abs
  | app (abs b) a => some (substVar 1 a b)
  | app a b =>
    match reductionStep a with
    | some a2 => some (app a2 b)
    | none => (reductionStep b).map (app a)

/-- Auxiliary fuel loop for `reduce`: performs reduction steps until normal
form or until the fuel runs out, counting the steps taken. -/
def reduceGo : Nat → Term → Nat → Term × Nat
  | 0, t, count => (t, count)
  | fuel + 1, t, count =>
    match reductionStep t with
    | none => (t, count)
    | some t2 => reduceGo fuel t2 (count + 1)

/-- Modelled from the spec: the Term Engine's
`reduce(term, strategy, step_budget) -> (Term, steps_used)`;
`steps_used == step_budget` signals non-termination (§6). -/
def reduce (t : Term) (limit : Nat) : Term × Nat :=
  reduceGo limit t 0

/-- Modelled from the spec: the Term Engine's `is_isomorphic(a, b)`:
alpha-equivalence comparison.  The spec's data model canonicalizes terms so
that structural equality coincides with alpha-equivalence (§3), which the
de Bruijn representation realizes. -/
def is_isomorphic_to (a b : Term) : Bool :=
  a = b

/-- Auxiliary: does the term contain a variable index exceeding the number
`c` of enclosing binders? -/
def hasFreeAbove (c : Nat) : Term → Bool
  | var n => n > c
  | abs t => hasFreeAbove (c + 1) t
  | app a b => hasFreeAbove c a || hasFreeAbove c b

/-- Modelled from the spec: the Term Engine's `has_free_variables(term)`. -/
def has_free_variables (t : Term) : Bool :=
  hasFreeAbove 0 t

/-- Modelled from the spec: the Term Engine's `max_depth(term)`, the integer
size metric used for outcome reporting ("size of a Term ... is its maximum
nesting depth", §4.1). -/
def max_depth : Term → Nat
  | var _ => 1
  | abs t => 1 + max_depth t
  | app a b => 1 + max (max_depth a) (max_depth b)

end Term

/-- The identity combinator `λx. x`, as built at soup.rs line 103. -/
def identityTerm : Term := .abs (.var 1)

/-- The default reaction rule `abs(abs(app(Var(1), Var(2))))` of
`Soup::new` (soup.rs line 45). -/
def defaultRule : Term := .abs (.abs (.app (.var 1) (.var 2)))

/-- The `Soup` struct of soup.rs lines 7-18: the population of expressions,
the rule set, the reduction budget, and the five configuration switches.
Note that the struct holds no random-number generator and no seed. -/
structure Soup where
  expressions : List Term
  reaction_rules : List Term
  reduction_limit : Nat
  maintain_constant_population_size : Bool
  discard_copy_actions : Bool
  discard_identity : Bool
  discard_free_variable_expressions : Bool
  discard_parents : Bool
deriving DecidableEq, Repr

/-- `CollisionResult` (soup.rs lines 21-24): size and number of reductions
for one collision. -/
structure CollisionResult where
  size : Nat
  reductions : Nat
deriving DecidableEq, Repr

/-- `ReactionResult` (soup.rs lines 28-36). -/
structure ReactionResult where
  collision_results : List CollisionResult
  left_size : Nat
  right_size : Nat
deriving DecidableEq, Repr

/-- State of the thread-local generator returned by `rand::thread_rng()`:
an abstract stream of draws together with the current position.  The
generator lives outside the `Soup` (it is obtained afresh inside `react`,
soup.rs line 124) and is shared by every consumer on the thread. -/
structure Rng where
  stream : Nat → Nat
  pos : Nat

/-- `rng.gen_range(0..n)`: panics ("cannot sample empty range") when the
range is empty, otherwise yields a value `< n` drawn from the generator and
advances it. -/
def genRange (g : Rng) (n : Nat) : Except String (Nat × Rng) :=
  if n = 0 then .error "cannot sample empty range"
  else .ok (g.stream g.pos % n, ⟨g.stream, g.pos + 1⟩)

/-- `Vec::swap_remove(i)`: removes and returns the element at index `i`,
replacing it with the last element.  Defined for `i < l.length`; the
default term is never reached at the guarded call sites. -/
def swapRemove (l : List Term) (i : Nat) : Term × List Term :=
  (l.getD i (.var 0), (l.set i (l.getLastD (.var 0))).dropLast)

namespace Soup

/-- `Soup::new` (soup.rs lines 41-56). -/
def new : Soup where
  expressions := []
  reaction_rules := [defaultRule]
  reduction_limit := 100000
  maintain_constant_population_size := true
  discard_copy_actions := true
  discard_identity := true
  discard_free_variable_expressions := true
  discard_parents := false

/-- `Soup::perturb` (soup.rs lines 90-92): append the given expressions to
the population, unchanged. -/
def perturb (s : Soup) (exprs : List Term) : Soup :=
  { s with expressions := s.expressions ++ exprs }

/-- `Soup::collide` (soup.rs lines 96-119): reduce `((rule left) right)` up
to the reduction limit, then apply the enabled filters in order: identity,
copy action, free variables. -/
def collide (s : Soup) (rule l r : Term) : Option (Term × Nat) :=
  let p := Term.reduce (.app (.app rule l) r) s.reduction_limit
  let expr := p.1
  let n := p.2
  if n = s.reduction_limit then none
  else if expr.is_isomorphic_to identityTerm && s.discard_identity then none
  else if (expr.is_isomorphic_to l || expr.is_isomorphic_to r) && s.discard_copy_actions then none
  else if expr.has_free_variables && s.discard_free_variable_expressions then none
  else some (expr, n)

/-- The collide loop of `react` (soup.rs lines 141-153): every rule is
collided with the two parents; the first failure aborts with `none`,
otherwise the outputs and their collision records are collected in order. -/
def collideAll (s : Soup) (l r : Term) : List Term → Option (List Term × List CollisionResult)
  | [] => some ([], [])
  | rule :: rest =>
    match s.collide rule l r with
    | none => none
    | some (value, n) =>
      match collideAll s l r rest with
      | none => none
      | some (buf, results) =>
        some (value :: buf, ⟨value.max_depth, n⟩ :: results)

/-- The size-maintenance loop of `react` (soup.rs lines 165-170): remove
`k` members at generator-chosen indices, one at a time. -/
def removeRandom (l : List Term) (g : Rng) : Nat → Except String (List Term × Rng)
  | 0 => .ok (l, g)
  | k + 1 =>
    match genRange g l.length with
    | .error e => .error e
    | .ok (idx, g1) => removeRandom (swapRemove l idx).2 g1 k

/-- `Soup::react` (soup.rs lines 123-178): one atomic reaction.  Two
parents are drawn and removed via `gen_range`/`swap_remove`; every rule is
collided; on any failure the reaction aborts with no outcome (the parents
stay removed); on success the outputs are appended, the parents re-added
unless `discard_parents`, and, if the constant-size switch is on, one
random member is removed per rule.  A panic of `gen_range` on an empty
range is modelled as `Except.error`. -/
def react (s : Soup) (g : Rng) : Except String (Option ReactionResult × Soup × Rng) :=
  match genRange g s.expressions.length with
  | .error e => .error e
  | .ok (i, g1) =>
    let pl := swapRemove s.expressions i
    let left := pl.1
    let left_size := left.max_depth
    match genRange g1 (s.expressions.length - 1) with
    | .error e => .error e
    | .ok (j, g2) =>
      let pr := swapRemove pl.2 j
      let right := pr.1
      let right_size := right.max_depth
      match s.collideAll left right s.reaction_rules with
      | none => .ok (none, { s with expressions := pr.2 }, g2)
      | some (buf, collision_results) =>
        let exprs3 := pr.2 ++ buf
        let exprs4 := if !s.discard_parents then exprs3 ++ [left, right] else exprs3
        if s.maintain_constant_population_size then
          match removeRandom exprs4 g2 s.reaction_rules.length with
          | .error e => .error e
          | .ok (exprs5, g3) =>
            .ok (some ⟨collision_results, left_size, right_size⟩,
                 { s with expressions := exprs5 }, g3)
        else
          .ok (some ⟨collision_results, left_size, right_size⟩,
               { s with expressions := exprs4 }, g2)

/-- Modelled from the spec: the read-only accessor for the current
population length exposed by the engine (§6) and used by `analysis.rs` as
`self.len()`. -/
def len (s : Soup) : Nat :=
  s.expressions.length

/-- One update of the `HashMap` in `expression_counts`:
`map.entry(expr).and_modify(|e| *e += 1).or_insert(1)` on an association
list. -/
def bumpCount (expr : Term) : List (Term × Nat) → List (Term × Nat)
  | [] => [(expr, 1)]
  | (t, c) :: rest =>
    if t = expr then (t, c + 1) :: rest else (t, c) :: bumpCount expr rest

/-- `Soup::expression_counts` (analysis.rs lines 21-27): mapping from
distinct expression to occurrence count, built by one pass over the
population. -/
def expression_counts (s : Soup) : List (Term × Nat) :=
  s.expressions.foldl (fun map expr => bumpCount expr map) []

/-- `Soup::population_entropy` (analysis.rs lines 31-39): Shannon entropy
of the empirical distribution of `expression_counts`, accumulated as
`entropy -= pi * pi.log10()` with `pi = value / n`.  The `f32` arithmetic
of the source is embedded into the reals. -/
noncomputable def population_entropy (s : Soup) : ℝ :=
  (s.expression_counts).foldl
    (fun entropy kv =>
      entropy - ((kv.2 : ℝ) / (s.len : ℝ)) * Real.logb 10 ((kv.2 : ℝ) / (s.len : ℝ)))
    0

end Soup

/-- The data printed by one iteration of `simulate_for` (soup.rs lines
183-193): either "reaction i failed" or "reaction i successful with ..."
followed by `result.left_size`, `result.right_size`,
`result.collision_results[0].reductions` and
`result.collision_results[0].size`, in that positional order. -/
inductive LogLine where
  | failed : Nat → LogLine
  | success : Nat → Nat → Nat → Nat → Nat → LogLine
deriving DecidableEq, Repr

/-- Renders one reaction's print line; indexing `collision_results[0]`
panics when the record list is empty. -/
def reactionLine (i : Nat) : Option ReactionResult → Except String LogLine
  | none => .ok (.failed i)
  | some r =>
    match r.collision_results with
    | [] => .error "index out of bounds"
    | c :: _ => .ok (.success i r.left_size r.right_size c.reductions c.size)

namespace Soup

/-- The loop of `simulate_for`, threading the soup and the thread-local
generator and collecting the printed lines; `i` is the loop counter. -/
def simulateGo (s : Soup) (g : Rng) (i : Nat) :
    Nat → Except String (List LogLine × Soup × Rng)
  | 0 => .ok ([], s, g)
  | k + 1 =>
    match s.react g with
    | .error e => .error e
    | .ok (outcome, s1, g1) =>
      match reactionLine i outcome with
      | .error e => .error e
      | .ok line =>
        match simulateGo s1 g1 (i + 1) k with
        | .error e => .error e
        | .ok (rest, s2, g2) => .ok (line :: rest, s2, g2)

/-- `Soup::simulate_for` (soup.rs lines 181-195): run `n` reactions,
printing one line per reaction.  The Rust function's return value is `()`;
the model also exposes the printed lines and the final state. -/
def simulate_for (s : Soup) (g : Rng) (n : Nat) :
    Except String (Unit × List LogLine × Soup × Rng) :=
  match simulateGo s g 0 n with
  | .error e => .error e
  | .ok (log, s2, g2) => .ok ((), log, s2, g2)

end Soup

/-- The number of successful attempts in a printed log, the quantity the
spec says `simulate_for` returns. -/
def countSuccessLines (log : List LogLine) : Nat :=
  (log.filter fun l => match l with | .success _ _ _ _ _ => true | _ => false).length

/-- The claim's abort condition for one rule, in the spec's terms: the
reduction of `rule(left)(right)` reaches the configured step budget, or an
enabled filter (identity, copy action, free variable) rejects the result. -/
def collideRejected (s : Soup) (rule l r : Term) : Prop :=
  (Term.reduce (.app (.app rule l) r) s.reduction_limit).2 = s.reduction_limit ∨
  ((Term.reduce (.app (.app rule l) r) s.reduction_limit).1.is_isomorphic_to identityTerm
    && s.discard_identity) = true ∨
  (((Term.reduce (.app (.app rule l) r) s.reduction_limit).1.is_isomorphic_to l
    || (Term.reduce (.app (.app rule l) r) s.reduction_limit).1.is_isomorphic_to r)
    && s.discard_copy_actions) = true ∨
  ((Term.reduce (.app (.app rule l) r) s.reduction_limit).1.has_free_variables
    && s.discard_free_variable_expressions) = true

instance (s : Soup) (rule l r : Term) : Decidable (collideRejected s rule l r) := by
  unfold collideRejected
  infer_instance

/-! ## Concrete terms, generators and soups used as test inputs -/

/-- The identity combinator `λx. x`. -/
def combI : Term := .abs (.var 1)

/-- The combinator `λx. λy. x`. -/
def combK : Term := .abs (.abs (.var 2))

/-- The combinator `λx. λy. y`. -/
def combKI : Term := .abs (.abs (.var 1))

/-- A constant-zero draw stream. -/
def zeroStream : Nat → Nat := fun _ => 0

/-- A thread-local generator state that always draws 0. -/
def zeroRng : Rng := ⟨zeroStream, 0⟩

/-- The draw stream 0, 1, 2, 3, ... -/
def idStream : Nat → Nat := fun n => n

/-- A thread-local generator at the start of `idStream`. -/
def idRng : Rng := ⟨idStream, 0⟩

/-- A soup on which every collision fails: the reduction limit 1 is always
reached by `rule(left)(right)`.  Parent retention is on
(`discard_parents = false`). -/
def soupFail : Soup where
  expressions := [combI, combKI]
  reaction_rules := [defaultRule]
  reduction_limit := 1
  maintain_constant_population_size := false
  discard_copy_actions := true
  discard_identity := true
  discard_free_variable_expressions := true
  discard_parents := false

/-- A soup on which the collision of the two identity parents succeeds
(identity and copy filters off); constant-size maintenance off, parents
retained. -/
def soupSuccess : Soup where
  expressions := [combI, combI]
  reaction_rules := [defaultRule]
  reduction_limit := 10
  maintain_constant_population_size := false
  discard_copy_actions := false
  discard_identity := false
  discard_free_variable_expressions := true
  discard_parents := false

/-- A soup on which the collision succeeds, with the constant-size switch
on and parents discarded. -/
def soupSuccessMaintain : Soup where
  expressions := [combI, combI]
  reaction_rules := [defaultRule]
  reduction_limit := 10
  maintain_constant_population_size := true
  discard_copy_actions := false
  discard_identity := false
  discard_free_variable_expressions := true
  discard_parents := true

/-- A three-member soup of distinct free variables whose collisions always
fail (limit 1), used to exhibit the shared-generator behaviour. -/
def soupShared : Soup where
  expressions := [.var 1, .var 2, .var 3]
  reaction_rules := [defaultRule]
  reduction_limit := 1
  maintain_constant_population_size := false
  discard_copy_actions := true
  discard_identity := true
  discard_free_variable_expressions := true
  discard_parents := false

/-- A soup with every filter enabled, used to witness a kept collision
output. -/
def soupAllFilters : Soup where
  expressions := []
  reaction_rules := [defaultRule]
  reduction_limit := 10
  maintain_constant_population_size := true
  discard_copy_actions := true
  discard_identity := true
  discard_free_variable_expressions := true
  discard_parents := false

/-! ## Observation helpers for concrete runs -/

/-- The resulting population length of a *successful* `react`, if any. -/
def reactSuccessPopLen (s : Soup) (g : Rng) : Option Nat :=
  match s.react g with
  | .ok (some _, s2, _) => some s2.expressions.length
  | _ => none

/-- The resulting population of a soft-failed `react`, if any. -/
def reactSoftPop (s : Soup) (g : Rng) : Option (List Term) :=
  match s.react g with
  | .ok (none, s2, _) => some s2.expressions
  | _ => none

/-- Run two engines in sequence on the same thread: the second engine's
`react` consumes the generator where the first one left it.  Returns both
resulting populations. -/
def reactTwicePops (sa sb : Soup) (g : Rng) : Option (List Term × List Term) :=
  match sa.react g with
  | .ok (_, sa2, g1) =>
    match sb.react g1 with
    | .ok (_, sb2, _) => some (sa2.expressions, sb2.expressions)
    | .error _ => none
  | .error _ => none

/-- The value returned by `simulate_for` (the Rust return value), if the
run does not panic. -/
def simulateReturnValue (s : Soup) (g : Rng) (n : Nat) : Option Unit :=
  match s.simulate_for g n with
  | .ok (u, _, _, _) => some u
  | .error _ => none

/-- The number of successful attempts of a `simulate_for` run, read off the
printed log. -/
def simulateSuccessCount (s : Soup) (g : Rng) (n : Nat) : Option Nat :=
  match s.simulate_for g n with
  | .ok (_, log, _, _) => some (countSuccessLines log)
  | .error _ => none

/-! ## Basic lemmas about the sampling primitives -/

lemma genRange_ok {g : Rng} {n : Nat} {i : Nat} {g' : Rng}
    (h : genRange g n = .ok (i, g')) :
    i < n ∧ n ≠ 0 ∧ g' = ⟨g.stream, g.pos + 1⟩ := by
  unfold genRange at h
  by_cases hn : n = 0
  · simp [hn] at h
  · simp only [hn, if_false] at h
    obtain ⟨hi, hg⟩ := Prod.mk.injEq .. ▸ (Except.ok.injEq .. ▸ h)
    exact ⟨hi ▸ Nat.mod_lt _ (Nat.pos_of_ne_zero hn), hn, hg.symm⟩

lemma genRange_zero (g : Rng) : genRange g 0 = .error "cannot sample empty range" := by
  simp [genRange]

/-- The element removed by `swap_remove` together with the remaining list
form a permutation of the original list. -/
lemma getD_cons_set_perm (d x : Term) :
    ∀ (ys : List Term) (i : Nat), i < ys.length →
      (ys.getD i d :: ys.set i x).Perm (ys ++ [x])
  | [], i, h => absurd h (by simp)
  | y :: t, 0, _ => by
    simpa using List.Perm.cons y (List.perm_append_singleton x t).symm
  | y :: t, i + 1, h => by
    have ih := getD_cons_set_perm d x t i (by simpa using h)
    exact (List.Perm.swap y (t.getD i d) (t.set i x)).trans (List.Perm.cons y ih)

lemma swapRemove_cons_perm {l : List Term} {i : Nat} (h : i < l.length) :
    ((swapRemove l i).1 :: (swapRemove l i).2).Perm l := by
  have hne : l ≠ [] := by rintro rfl; simp at h
  obtain ⟨ys, x, rfl⟩ : ∃ ys x, l = ys ++ [x] := by
    refine ⟨l.dropLast, l.getLast hne, ?_⟩
    exact (List.dropLast_append_getLast hne).symm
  have hlen : (ys ++ [x]).length = ys.length + 1 := by simp
  unfold swapRemove
  rcases Nat.lt_or_ge i ys.length with hi | hi
  · have hset : (ys ++ [x]).set i ((ys ++ [x]).getLastD (.var 0)) = ys.set i x ++ [x] := by
      rw [List.getLastD_concat, List.set_append]
      simp [hi]
    have hgetD : (ys ++ [x]).getD i (.var 0) = ys.getD i (.var 0) := by
      rw [List.getD_eq_getElem?_getD, List.getElem?_append_left hi,
        ← List.getD_eq_getElem?_getD]
    rw [hset, hgetD, List.dropLast_concat]
    exact getD_cons_set_perm _ x ys i hi
  · have hieq : i = ys.length := by
      have hlt : i < ys.length + 1 := by
        simpa using h
      omega
    subst hieq
    have hset : (ys ++ [x]).set ys.length ((ys ++ [x]).getLastD (.var 0)) = ys ++ [x] := by
      rw [List.getLastD_concat, List.set_append]
      simp
    have hgetD : (ys ++ [x]).getD ys.length (.var 0) = x := by
      rw [List.getD_eq_getElem?_getD, List.getElem?_concat_length]
      rfl
    rw [hset, hgetD, List.dropLast_concat]
    exact (List.perm_append_singleton x ys).symm

lemma swapRemove_length {l : List Term} {i : Nat} (h : i < l.length) :
    (swapRemove l i).2.length + 1 = l.length := by
  have := (swapRemove_cons_perm h).length_eq
  simpa using this

/-! ## Lemmas about the collide loop -/

lemma collideAll_none_of_mem (s : Soup) (l r rule : Term) :
    ∀ rules : List Term, rule ∈ rules → s.collide rule l r = none →
      s.collideAll l r rules = none
  | [], hmem, _ => absurd hmem (by simp)
  | r2 :: rest, hmem, hnone => by
    unfold Soup.collideAll
    rcases List.mem_cons.mp hmem with heq | hmem2
    · rw [heq] at hnone
      rw [hnone]
    · rcases hc : s.collide r2 l r with _ | ⟨value, n⟩
      · rfl
      · rw [collideAll_none_of_mem s l r rule rest hmem2 hnone]

lemma collideAll_lengths (s : Soup) (l r : Term) :
    ∀ (rules : List Term) (buf : List Term) (results : List CollisionResult),
      s.collideAll l r rules = some (buf, results) →
      buf.length = rules.length ∧ results.length = rules.length
  | [], buf, results, h => by
    simp only [Soup.collideAll, Option.some.injEq, Prod.mk.injEq] at h
    obtain ⟨h1, h2⟩ := h
    subst h1; subst h2
    simp
  | rule :: rest, buf, results, h => by
    unfold Soup.collideAll at h
    rcases hc : s.collide rule l r with _ | ⟨value, n⟩
    · rw [hc] at h; cases h
    · rw [hc] at h
      rcases hrest : s.collideAll l r rest with _ | ⟨buf2, results2⟩
      · rw [hrest] at h; cases h
      · rw [hrest] at h
        simp only [Option.some.injEq, Prod.mk.injEq] at h
        obtain ⟨hb, hr⟩ := h
        obtain ⟨ih1, ih2⟩ := collideAll_lengths s l r rest buf2 results2 hrest
        subst hb; subst hr
        simp [ih1, ih2]

lemma collideAll_mem (s : Soup) (l r : Term) :
    ∀ (rules : List Term) (buf : List Term) (results : List CollisionResult),
      s.collideAll l r rules = some (buf, results) →
      ∀ v ∈ buf, ∃ rule ∈ rules, ∃ n, s.collide rule l r = some (v, n)
  | [], buf, results, h => by
    simp only [Soup.collideAll, Option.some.injEq, Prod.mk.injEq] at h
    obtain ⟨h1, -⟩ := h
    subst h1
    simp
  | rule :: rest, buf, results, h => by
    unfold Soup.collideAll at h
    rcases hc : s.collide rule l r with _ | ⟨value, n⟩
    · rw [hc] at h; cases h
    · rw [hc] at h
      rcases hrest : s.collideAll l r rest with _ | ⟨buf2, results2⟩
      · rw [hrest] at h; cases h
      · rw [hrest] at h
        simp only [Option.some.injEq, Prod.mk.injEq] at h
        obtain ⟨hb, -⟩ := h
        subst hb
        intro v hv
        rcases List.mem_cons.mp hv with hv | hv
        · exact ⟨rule, List.mem_cons_self rule rest, ⟨n, hv ▸ hc⟩⟩
        · obtain ⟨rule2, hmem, hn⟩ := collideAll_mem s l r rest buf2 results2 hrest v hv
          exact ⟨rule2, List.mem_cons_of_mem _ hmem, hn⟩

/-! ## Lemmas about the maintenance loop -/

lemma removeRandom_length :
    ∀ (k : Nat) (l : List Term) (g : Rng) (l2 : List Term) (g2 : Rng),
      Soup.removeRandom l g k = .ok (l2, g2) → l2.length + k = l.length
  | 0, l, g, l2, g2, h => by
    simp only [Soup.removeRandom, Except.ok.injEq, Prod.mk.injEq] at h
    obtain ⟨h1, -⟩ := h
    subst h1
    simp
  | k + 1, l, g, l2, g2, h => by
    unfold Soup.removeRandom at h
    rcases hg : genRange g l.length with e | ⟨idx, g1⟩
    · rw [hg] at h; cases h
    · rw [hg] at h
      obtain ⟨hidx, -, -⟩ := genRange_ok hg
      have ih := removeRandom_length k (swapRemove l idx).2 g1 l2 g2 h
      have hlen := swapRemove_length hidx
      omega

/-! ## Inversion lemmas for `react` -/

/-- A reaction that returns no outcome leaves the population equal to the
original minus the two drawn parents: nothing is added and nothing else is
removed, whatever the configuration switches say. -/
lemma react_soft_inv {s : Soup} {g : Rng} {s2 : Soup} {g2 : Rng}
    (h : s.react g = .ok (none, s2, g2)) :
    ∃ left right, (left :: right :: s2.expressions).Perm s.expressions ∧
      s2 = { s with expressions := s2.expressions } ∧
      s2.expressions.length + 2 = s.expressions.length := by
  unfold Soup.react at h
  rcases hga : genRange g s.expressions.length with e | ⟨i, g1⟩
  · simp only [hga] at h
    cases h
  · simp only [hga] at h
    obtain ⟨hi, -, -⟩ := genRange_ok hga
    rcases hgb : genRange g1 (s.expressions.length - 1) with e | ⟨j, g2x⟩
    · simp only [hgb] at h
      cases h
    · simp only [hgb] at h
      obtain ⟨hj, -, -⟩ := genRange_ok hgb
      have hlen1 := swapRemove_length hi
      have hj2 : j < (swapRemove s.expressions i).2.length := by omega
      rcases hca : s.collideAll (swapRemove s.expressions i).1
          (swapRemove (swapRemove s.expressions i).2 j).1 s.reaction_rules with
        _ | ⟨buf, results⟩
      · simp only [hca, Except.ok.injEq, Prod.mk.injEq] at h
        obtain ⟨-, hs2, -⟩ := h
        refine ⟨(swapRemove s.expressions i).1,
          (swapRemove (swapRemove s.expressions i).2 j).1, ?_, ?_, ?_⟩
        · rw [hs2.symm]
          exact (List.Perm.cons _ (swapRemove_cons_perm hj2)).trans
            (swapRemove_cons_perm hi)
        · rw [hs2.symm]
        · rw [hs2.symm]
          have hlen2 := swapRemove_length hj2
          simpa using by omega
      · simp only [hca] at h
        rcases hmt : s.maintain_constant_population_size with _ | _
        · simp only [hmt, if_false, Bool.false_eq_true, Except.ok.injEq,
            Prod.mk.injEq] at h
          exact absurd h.1 (by simp)
        · simp only [hmt, if_true] at h
          rcases hrr : Soup.removeRandom
              ((if !s.discard_parents then
                  (swapRemove (swapRemove s.expressions i).2 j).2 ++ buf ++
                    [(swapRemove s.expressions i).1,
                     (swapRemove (swapRemove s.expressions i).2 j).1]
                else (swapRemove (swapRemove s.expressions i).2 j).2 ++ buf))
              g2x s.reaction_rules.length with e | ⟨exprs5, g3⟩
          · simp only [hrr] at h
            cases h
          · simp only [hrr, Except.ok.injEq, Prod.mk.injEq] at h
            exact absurd h.1 (by simp)

/-- Population-length accounting for a successful reaction: with the
constant-size switch on, the final length is the original one minus two
plus two-if-parents-retained; with it off, the rule-output count is added
as well. -/
lemma react_success_length {s : Soup} {g : Rng} {res : ReactionResult}
    {s2 : Soup} {g2 : Rng} (h : s.react g = .ok (some res, s2, g2)) :
    2 ≤ s.expressions.length ∧
      s2.expressions.length + 2 =
        (if s.maintain_constant_population_size then
          s.expressions.length + (if s.discard_parents then 0 else 2)
        else
          s.expressions.length + s.reaction_rules.length +
            (if s.discard_parents then 0 else 2)) := by
  unfold Soup.react at h
  rcases hga : genRange g s.expressions.length with e | ⟨i, g1⟩
  · simp only [hga] at h
    cases h
  · simp only [hga] at h
    obtain ⟨hi, -, -⟩ := genRange_ok hga
    rcases hgb : genRange g1 (s.expressions.length - 1) with e | ⟨j, g2x⟩
    · simp only [hgb] at h
      cases h
    · simp only [hgb] at h
      obtain ⟨hj, hnz, -⟩ := genRange_ok hgb
      have hlen2 : 2 ≤ s.expressions.length := by omega
      have hlen1 := swapRemove_length hi
      have hj2 : j < (swapRemove s.expressions i).2.length := by omega
      have hlenB := swapRemove_length hj2
      rcases hca : s.collideAll (swapRemove s.expressions i).1
          (swapRemove (swapRemove s.expressions i).2 j).1 s.reaction_rules with
        _ | ⟨buf, results⟩
      · simp only [hca, Except.ok.injEq, Prod.mk.injEq] at h
        exact absurd h.1 (by simp)
      · simp only [hca] at h
        obtain ⟨hbuf, -⟩ := collideAll_lengths s _ _ _ _ _ hca
        have hlen4 :
            (if !s.discard_parents then
              (swapRemove (swapRemove s.expressions i).2 j).2 ++ buf ++
                [(swapRemove s.expressions i).1,
                 (swapRemove (swapRemove s.expressions i).2 j).1]
            else (swapRemove (swapRemove s.expressions i).2 j).2 ++ buf).length =
              (swapRemove (swapRemove s.expressions i).2 j).2.length + buf.length +
                (if s.discard_parents then 0 else 2) := by
          rcases hdp : s.discard_parents with _ | _
          · simp [hdp]
            omega
          · simp [hdp]
        rcases hmt : s.maintain_constant_population_size with _ | _
        · simp only [hmt, if_false, Bool.false_eq_true, Except.ok.injEq,
            Prod.mk.injEq] at h
          obtain ⟨-, hs2, -⟩ := h
          have hexp : s2.expressions =
              (if !s.discard_parents then
                (swapRemove (swapRemove s.expressions i).2 j).2 ++ buf ++
                  [(swapRemove s.expressions i).1,
                   (swapRemove (swapRemove s.expressions i).2 j).1]
              else (swapRemove (swapRemove s.expressions i).2 j).2 ++ buf) := by
            rw [hs2.symm]
          rw [if_neg (by simp [hmt])]
          refine ⟨hlen2, ?_⟩
          rw [hexp, hlen4, hbuf]
          omega
        · simp only [hmt, if_true] at h
          rcases hrr : Soup.removeRandom
              ((if !s.discard_parents then
                  (swapRemove (swapRemove s.expressions i).2 j).2 ++ buf ++
                    [(swapRemove s.expressions i).1,
                     (swapRemove (swapRemove s.expressions i).2 j).1]
                else (swapRemove (swapRemove s.expressions i).2 j).2 ++ buf))
              g2x s.reaction_rules.length with e | ⟨exprs5, g3⟩
          · simp only [hrr] at h
            cases h
          · simp only [hrr, Except.ok.injEq, Prod.mk.injEq] at h
            obtain ⟨-, hs2, -⟩ := h
            have hrl := removeRandom_length _ _ _ _ _ hrr
            rw [hlen4, hbuf] at hrl
            have hexp : s2.expressions = exprs5 := by rw [hs2.symm]
            rw [if_pos rfl]
            refine ⟨hlen2, ?_⟩
            rw [hexp]
            omega

/-- `react` on a population of size 0 or 1 hits `gen_range` on an empty
range, which panics. -/
lemma react_error_of_small (s : Soup) (g : Rng) (h : s.expressions.length < 2) :
    s.react g = .error "cannot sample empty range" := by
  have h01 : s.expressions.length = 0 ∨ s.expressions.length = 1 := by omega
  rcases h01 with h0 | h1
  · unfold Soup.react
    rw [h0, genRange_zero]
  · unfold Soup.react
    rw [h1]
    have hg1 : genRange g 1 = .ok (g.stream g.pos % 1, ⟨g.stream, g.pos + 1⟩) := by
      simp [genRange]
    rw [hg1]
    simp [genRange_zero]

/-- The explicit if-chain form of `collide`. -/
lemma collide_eq (s : Soup) (rule l r : Term) :
    s.collide rule l r =
      (if (Term.reduce (.app (.app rule l) r) s.reduction_limit).2 = s.reduction_limit then
        none
      else if (Term.reduce (.app (.app rule l) r) s.reduction_limit).1.is_isomorphic_to
            identityTerm && s.discard_identity then
        none
      else if ((Term.reduce (.app (.app rule l) r) s.reduction_limit).1.is_isomorphic_to l
            || (Term.reduce (.app (.app rule l) r) s.reduction_limit).1.is_isomorphic_to r)
            && s.discard_copy_actions then
        none
      else if (Term.reduce (.app (.app rule l) r) s.reduction_limit).1.has_free_variables
            && s.discard_free_variable_expressions then
        none
      else
        some ((Term.reduce (.app (.app rule l) r) s.reduction_limit).1,
              (Term.reduce (.app (.app rule l) r) s.reduction_limit).2)) := rfl

/-- A rejected rule (budget reached or filter hit) makes `collide` fail. -/
lemma collide_none_of_rejected {s : Soup} {rule l r : Term}
    (h : collideRejected s rule l r) : s.collide rule l r = none := by
  rw [collide_eq]
  unfold collideRejected at h
  split_ifs with h1 h2 h3 h4
  · rfl
  · rfl
  · rfl
  · rfl
  · rcases h with h | h | h | h
    · exact absurd h h1
    · exact absurd h h2
    · exact absurd h h3
    · exact absurd h h4

/-! ## Lemmas for the statistics layer -/

lemma bumpCount_snd_sum (expr : Term) :
    ∀ m : List (Term × Nat),
      ((Soup.bumpCount expr m).map Prod.snd).sum = ((m.map Prod.snd).sum) + 1
  | [] => by simp [Soup.bumpCount]
  | (t, c) :: rest => by
    unfold Soup.bumpCount
    by_cases h : t = expr
    · simp only [h, if_true, List.map_cons, List.sum_cons]
      omega
    · simp only [h, if_false, List.map_cons, List.sum_cons,
        bumpCount_snd_sum expr rest]
      omega

lemma foldl_counts_sum :
    ∀ (exprs : List Term) (m : List (Term × Nat)),
      ((exprs.foldl (fun map e => Soup.bumpCount e map) m).map Prod.snd).sum =
        (m.map Prod.snd).sum + exprs.length
  | [], m => by simp
  | e :: rest, m => by
    simp only [List.foldl_cons]
    rw [foldl_counts_sum rest (Soup.bumpCount e m), bumpCount_snd_sum e m]
    simp only [List.length_cons]
    omega

lemma foldl_sub_eq (f : Term × Nat → ℝ) :
    ∀ (l : List (Term × Nat)) (a : ℝ),
      l.foldl (fun e kv => e - f kv) a = a - (l.map f).sum
  | [], a => by simp
  | kv :: rest, a => by
    simp only [List.foldl_cons, List.map_cons, List.sum_cons]
    rw [foldl_sub_eq f rest (a - f kv)]
    ring

lemma counts_replicate (t : Term) :
    ∀ (m k : ℕ),
      (List.replicate m t).foldl (fun map e => Soup.bumpCount e map) [(t, k)] = [(t, k + m)]
  | 0, k => by simp
  | m + 1, k => by
    simp only [List.replicate_succ, List.foldl_cons]
    have hb : Soup.bumpCount t [(t, k)] = [(t, k + 1)] := by simp [Soup.bumpCount]
    rw [hb, counts_replicate t m (k + 1)]
    have : k + 1 + m = k + (m + 1) := by omega
    rw [this]

lemma expression_counts_replicate (s : Soup) (n : ℕ) (t : Term) (hn : 1 ≤ n)
    (h : s.expressions = List.replicate n t) : s.expression_counts = [(t, n)] := by
  rw [Soup.expression_counts, h]
  obtain ⟨m, rfl⟩ : ∃ m, n = m + 1 := ⟨n - 1, by omega⟩
  rw [List.replicate_succ, List.foldl_cons]
  have hb : Soup.bumpCount t [] = [(t, 1)] := rfl
  rw [hb, counts_replicate t m 1]
  have : 1 + m = m + 1 := by omega
  rw [this]

/-! ## Lemmas for the simulation controller -/

lemma simulateGo_length :
    ∀ (k : ℕ) (s : Soup) (g : Rng) (i : ℕ) (log : List LogLine) (s2 : Soup) (g2 : Rng),
      Soup.simulateGo s g i k = .ok (log, s2, g2) → log.length = k
  | 0, s, g, i, log, s2, g2, h => by
    simp only [Soup.simulateGo, Except.ok.injEq, Prod.mk.injEq] at h
    rw [← h.1]
    rfl
  | k + 1, s, g, i, log, s2, g2, h => by
    unfold Soup.simulateGo at h
    rcases hre : s.react g with e | ⟨o, s1, g1⟩
    · simp only [hre] at h
      cases h
    · simp only [hre] at h
      rcases hline : reactionLine i o with e | line
      · simp only [hline] at h
        cases h
      · simp only [hline] at h
        rcases hgo : Soup.simulateGo s1 g1 (i + 1) k with e | ⟨rest, sx, gx⟩
        · simp only [hgo] at h
          cases h
        · simp only [hgo, Except.ok.injEq, Prod.mk.injEq] at h
          rw [← h.1]
          simp [simulateGo_length k s1 g1 (i + 1) rest sx gx hgo]

/-! ## Claim theorems -/

/-- C1 (amended): after a successful `react()`, with the
maintain-constant-population-size switch on the population length changes
by (2 if parents are retained else 0) − 2 — it is preserved only when the
parents are retained, because the compensating removal always removes as
many members as there are rule outputs, regardless of parent retention;
with the switch off the length changes by exactly (number of rule outputs
added) + (2 if parents are retained, else 0) − 2. -/
theorem C1_success_population_size {s : Soup} {g : Rng} {res : ReactionResult}
    {s2 : Soup} {g2 : Rng} (h : s.react g = .ok (some res, s2, g2)) :
    (s.maintain_constant_population_size = true →
      s2.expressions.length + 2 =
        s.expressions.length + (if s.discard_parents then 0 else 2)) ∧
    (s.maintain_constant_population_size = false →
      s2.expressions.length + 2 =
        s.expressions.length + s.reaction_rules.length +
          (if s.discard_parents then 0 else 2)) := by
  obtain ⟨-, h2⟩ := react_success_length h
  constructor
  · intro hm
    simpa [hm] using h2
  · intro hm
    simpa [hm] using h2

/-- C1 witness: the size accounting evaluated on a concrete successful
reaction (constant-size switch on, parents discarded). -/
theorem C1_success_population_size_witness :
    (soupSuccessMaintain.maintain_constant_population_size = true →
      ({ soupSuccessMaintain with expressions := [] } : Soup).expressions.length + 2 =
        soupSuccessMaintain.expressions.length +
          (if soupSuccessMaintain.discard_parents then 0 else 2)) ∧
    (soupSuccessMaintain.maintain_constant_population_size = false →
      ({ soupSuccessMaintain with expressions := [] } : Soup).expressions.length + 2 =
        soupSuccessMaintain.expressions.length +
          soupSuccessMaintain.reaction_rules.length +
          (if soupSuccessMaintain.discard_parents then 0 else 2)) :=
  @C1_success_population_size soupSuccessMaintain zeroRng ⟨[⟨2, 3⟩], 2, 2⟩
    { soupSuccessMaintain with expressions := [] } ⟨zeroStream, 3⟩ rfl

/-- C1 counterexample: with the maintain-constant-population-size switch
on but parents discarded, a successful `react()` shrinks the population
from 2 to 0, so the length is not preserved as the claim states. -/
theorem C1_maintain_counterexample :
    soupSuccessMaintain.maintain_constant_population_size = true ∧
    soupSuccessMaintain.expressions.length = 2 ∧
    reactSuccessPopLen soupSuccessMaintain zeroRng = some 0 ∧
    reactSuccessPopLen soupSuccessMaintain zeroRng ≠
      some soupSuccessMaintain.expressions.length :=
  ⟨rfl, rfl, rfl, by decide⟩

/-- C2 (amended): a failed collision permanently removes the two selected
parents from the population regardless of the parent-retention switch: the
early return on collision failure happens before the parents would be
re-appended, so even with retention on the parents are consumed. -/
theorem C2_failed_collision_removes_parents {s : Soup} {g : Rng} {s2 : Soup}
    {g2 : Rng} (h : s.react g = .ok (none, s2, g2))
    (_hret : s.discard_parents = false) :
    ∃ left right, (left :: right :: s2.expressions).Perm s.expressions ∧
      s2.expressions.length + 2 = s.expressions.length := by
  obtain ⟨l, r, hperm, -, hlen⟩ := react_soft_inv h
  exact ⟨l, r, hperm, hlen⟩

/-- C2 witness: a concrete failed collision with parent retention on;
the two parents are gone afterwards. -/
theorem C2_failed_collision_removes_parents_witness :
    ∃ left right,
      (left :: right :: ({ soupFail with expressions := [] } : Soup).expressions).Perm
        soupFail.expressions ∧
      ({ soupFail with expressions := [] } : Soup).expressions.length + 2 =
        soupFail.expressions.length :=
  @C2_failed_collision_removes_parents soupFail zeroRng
    { soupFail with expressions := [] } ⟨zeroStream, 2⟩ rfl rfl

/-- C2 counterexample: parent retention is on (`discard_parents = false`)
and the collision fails, yet the resulting population is empty — the
parents did not remain, contradicting the claim. -/
theorem C2_retention_counterexample :
    soupFail.discard_parents = false ∧
    soupFail.expressions = [combI, combKI] ∧
    reactSoftPop soupFail zeroRng = some [] :=
  ⟨rfl, rfl, rfl⟩

/-- C3: if, for the two selected parents, any rule's reduction reaches the
configured step budget or any enabled filter rejects that rule's result,
then `react()` returns no outcome and the population is exactly the
original minus the two parents — no candidate output from any rule is
added. -/
theorem C3_any_rejection_aborts {s : Soup} {g : Rng} {i j : ℕ} {g1 g2 : Rng}
    (hga : genRange g s.expressions.length = .ok (i, g1))
    (hgb : genRange g1 (s.expressions.length - 1) = .ok (j, g2))
    (hfail : ∃ rule ∈ s.reaction_rules,
      collideRejected s rule (swapRemove s.expressions i).1
        (swapRemove (swapRemove s.expressions i).2 j).1) :
    s.react g = .ok (none,
      { s with expressions := (swapRemove (swapRemove s.expressions i).2 j).2 },
      g2) := by
  obtain ⟨rule, hmem, hrej⟩ := hfail
  have hnone := collide_none_of_rejected hrej
  unfold Soup.react
  simp only [hga, hgb]
  rw [collideAll_none_of_mem s _ _ rule s.reaction_rules hmem hnone]

/-- C3 witness: a concrete collision whose single rule hits the reduction
budget; the reaction aborts with no outcome and only the parents gone. -/
theorem C3_any_rejection_aborts_witness :
    soupFail.react zeroRng = .ok (none,
      { soupFail with
          expressions := (swapRemove (swapRemove soupFail.expressions 0).2 0).2 },
      ⟨zeroStream, 2⟩) :=
  @C3_any_rejection_aborts soupFail zeroRng 0 0 ⟨zeroStream, 1⟩ ⟨zeroStream, 2⟩
    rfl rfl ⟨defaultRule, by decide, Or.inl (by decide)⟩

/-- C4: invoking `react()` on a population of size 0 or 1 fails with the
fatal `gen_range` panic on an empty range — a loud failure distinct from
the soft no-outcome return; it never returns a soft failure there. -/
theorem C4_react_fatal_on_small_population (s : Soup) (g : Rng)
    (h : s.expressions.length < 2) :
    s.react g = .error "cannot sample empty range" :=
  react_error_of_small s g h

/-- C4 witness: the fatal failure evaluated on concrete populations of
sizes 0 and 1. -/
theorem C4_react_fatal_on_small_population_witness :
    ({ soupFail with expressions := ([] : List Term) } : Soup).react zeroRng =
        .error "cannot sample empty range" ∧
    ({ soupFail with expressions := [combI] } : Soup).react zeroRng =
        .error "cannot sample empty range" :=
  ⟨C4_react_fatal_on_small_population _ zeroRng (by decide),
   C4_react_fatal_on_small_population _ zeroRng (by decide)⟩

/-- C5 (amended): the randomness of `react()` comes from the thread-shared
generator supplied at call time (`thread_rng()`), not from any
instance-local seeded source — the `Soup` stores no generator and no seed.
Consequently, two engines with identical configuration and insertion
sequence that share the thread's generator can produce different
trajectories under identical call sequences: the first engine's draws
advance the shared state seen by the second. -/
theorem C5_shared_generator_divergence :
    ∃ (s : Soup) (g g1 g2 : Rng) (o1 o2 : Option ReactionResult) (sa sb : Soup),
      s.react g = .ok (o1, sa, g1) ∧ s.react g1 = .ok (o2, sb, g2) ∧
      sa.expressions ≠ sb.expressions :=
  ⟨soupShared, idRng, ⟨idStream, 2⟩, ⟨idStream, 4⟩, none, none,
    { soupShared with expressions := [.var 3] },
    { soupShared with expressions := [.var 1] },
    rfl, rfl, by decide⟩

/-- C5 counterexample: two engines with identical configuration and
identical insertion and call sequences (each soup *is* `soupShared` and
each performs one `react()`), run in sequence on one thread, end with the
populations `[x₃]` and `[x₁]` respectively — the trajectories are not
identical, refuting the claimed determinism. -/
theorem C5_determinism_counterexample :
    reactTwicePops soupShared soupShared idRng = some ([.var 3], [.var 1]) ∧
    ([Term.var 3] : List Term) ≠ [Term.var 1] :=
  ⟨rfl, by decide⟩

/-- C6: a kept collision result never violates an enabled filter: with the
identity filter on it is not alpha-equivalent to the identity combinator,
with the copy-action filter on it is not alpha-equivalent to either
parent, and with the free-variable filter on it has no free variables;
hence every member freshly produced by a reaction (every element of the
collide loop's output buffer) satisfies the enabled filters. -/
theorem C6_filter_correctness (s : Soup) (l r : Term) :
    (∀ rule e n, s.collide rule l r = some (e, n) →
      (s.discard_identity = true → e.is_isomorphic_to identityTerm = false) ∧
      (s.discard_copy_actions = true →
        e.is_isomorphic_to l = false ∧ e.is_isomorphic_to r = false) ∧
      (s.discard_free_variable_expressions = true → e.has_free_variables = false)) ∧
    (∀ buf results, s.collideAll l r s.reaction_rules = some (buf, results) →
      ∀ v ∈ buf,
        (s.discard_identity = true → v.is_isomorphic_to identityTerm = false) ∧
        (s.discard_copy_actions = true →
          v.is_isomorphic_to l = false ∧ v.is_isomorphic_to r = false) ∧
        (s.discard_free_variable_expressions = true → v.has_free_variables = false)) := by
  have hpart1 : ∀ rule e n, s.collide rule l r = some (e, n) →
      (s.discard_identity = true → e.is_isomorphic_to identityTerm = false) ∧
      (s.discard_copy_actions = true →
        e.is_isomorphic_to l = false ∧ e.is_isomorphic_to r = false) ∧
      (s.discard_free_variable_expressions = true → e.has_free_variables = false) := by
    intro rule e n h
    rw [collide_eq] at h
    split_ifs at h with h1 h2 h3 h4
    simp only [Option.some.injEq, Prod.mk.injEq] at h
    obtain ⟨he, -⟩ := h
    subst he
    refine ⟨?_, ?_, ?_⟩
    · intro hdi
      rw [hdi] at h2
      simpa using h2
    · intro hdc
      rw [hdc] at h3
      simpa using h3
    · intro hdf
      rw [hdf] at h4
      simpa using h4
  refine ⟨hpart1, ?_⟩
  intro buf results hall v hv
  obtain ⟨rule, hmem, n, hcol⟩ :=
    collideAll_mem s l r s.reaction_rules buf results hall v hv
  exact hpart1 rule v n hcol

/-- C6 witness: with every filter on, the concrete collision
`rule(I)(K)` is kept with output `λx.λy.y`, which indeed is not the
identity, not a copy of a parent, and closed. -/
theorem C6_filter_correctness_witness :
    Term.is_isomorphic_to combKI identityTerm = false ∧
    (Term.is_isomorphic_to combKI combI = false ∧
      Term.is_isomorphic_to combKI combK = false) ∧
    Term.has_free_variables combKI = false :=
  have h := (C6_filter_correctness soupAllFilters combI combK).1 defaultRule combKI 3 rfl
  ⟨h.1 rfl, h.2.1 rfl, h.2.2 rfl⟩

/-- C7: the values of `expression_counts()` sum to exactly the current
population size, for every population. -/
theorem C7_expression_counts_sum (s : Soup) :
    ((s.expression_counts).map Prod.snd).sum = s.len := by
  rw [Soup.expression_counts, Soup.len, foldl_counts_sum]
  simp

/-- C8: `population_entropy()` computes H = −Σ pᵢ·log₁₀(pᵢ) with
pᵢ = countᵢ / population size, and is exactly 0 for the empty population
(no division is performed there) and for n ≥ 1 copies of a single unique
expression. -/
theorem C8_population_entropy (s : Soup) :
    s.population_entropy =
      -(((s.expression_counts).map fun kv =>
          ((kv.2 : ℝ) / (s.len : ℝ)) * Real.logb 10 ((kv.2 : ℝ) / (s.len : ℝ))).sum) ∧
    (s.expressions = [] → s.population_entropy = 0) ∧
    (∀ n t, 1 ≤ n → s.expressions = List.replicate n t →
      s.population_entropy = 0) := by
  have hform : s.population_entropy =
      -(((s.expression_counts).map fun kv =>
          ((kv.2 : ℝ) / (s.len : ℝ)) * Real.logb 10 ((kv.2 : ℝ) / (s.len : ℝ))).sum) := by
    rw [Soup.population_entropy, foldl_sub_eq, zero_sub]
  refine ⟨hform, ?_, ?_⟩
  · intro h
    have hc : s.expression_counts = [] := by
      rw [Soup.expression_counts, h]
      rfl
    rw [hform, hc]
    simp
  · intro n t hn hrep
    rw [hform, expression_counts_replicate s n t hn hrep]
    have hlen : s.len = n := by
      rw [Soup.len, hrep]
      simp
    have hne : (n : ℝ) ≠ 0 := Nat.cast_ne_zero.mpr (by omega)
    rw [hlen]
    simp [div_self hne]

/-- C8 witness: the entropy of three copies of one expression is 0. -/
theorem C8_population_entropy_witness :
    ({ soupFail with expressions := List.replicate 3 combI } : Soup).population_entropy
      = 0 :=
  (C8_population_entropy _).2.2 3 combI (by decide) rfl

/-- C9 (amended): `simulate_for(n)` performs exactly n `react()` attempts
(successes and failures both counted: the log holds one line per attempt),
but its return value is unit — the success count is printed, not
returned. -/
theorem C9_simulate_for_attempts {s : Soup} {g : Rng} {n : ℕ} {u : Unit}
    {log : List LogLine} {s2 : Soup} {g2 : Rng}
    (h : s.simulate_for g n = .ok (u, log, s2, g2)) :
    log.length = n ∧ u = () := by
  unfold Soup.simulate_for at h
  rcases hgo : Soup.simulateGo s g 0 n with e | ⟨lg, sx, gx⟩
  · simp only [hgo] at h
    cases h
  · simp only [hgo, Except.ok.injEq, Prod.mk.injEq] at h
    obtain ⟨-, hlg, -⟩ := h
    exact ⟨by rw [← hlg]; exact simulateGo_length n s g 0 lg sx gx hgo, rfl⟩

/-- C9 witness: a concrete one-attempt run: one log line, unit return. -/
theorem C9_simulate_for_attempts_witness :
    ([LogLine.failed 0] : List LogLine).length = 1 ∧ () = () :=
  @C9_simulate_for_attempts soupFail zeroRng 1 () [LogLine.failed 0]
    { soupFail with expressions := [] } ⟨zeroStream, 2⟩ rfl

/-- C9 counterexample: two runs with different success counts (1 and 0)
produce identical return values, so `simulate_for` does not return the
count of successful attempts. -/
theorem C9_return_value_counterexample :
    simulateReturnValue soupSuccess zeroRng 1 = simulateReturnValue soupFail zeroRng 1 ∧
    simulateSuccessCount soupSuccess zeroRng 1 = some 1 ∧
    simulateSuccessCount soupFail zeroRng 1 = some 0 :=
  ⟨rfl, rfl, rfl⟩

/-- C10: whenever `react()` returns no outcome, the population size drops
by exactly 2, every configuration field is unchanged, and the remaining
population is the original one minus the two selected parents (as a
multiset — no other member changes), regardless of the parent-retention
and constant-size switches. -/
theorem C10_soft_failure_frame {s : Soup} {g : Rng} {s2 : Soup} {g2 : Rng}
    (h : s.react g = .ok (none, s2, g2)) :
    s2.expressions.length + 2 = s.expressions.length ∧
    s2 = { s with expressions := s2.expressions } ∧
    ∃ left right, (left :: right :: s2.expressions).Perm s.expressions := by
  obtain ⟨l, r, hperm, hframe, hlen⟩ := react_soft_inv h
  exact ⟨hlen, hframe, l, r, hperm⟩

/-- C10 witness: the frame property evaluated on a concrete failed
collision. -/
theorem C10_soft_failure_frame_witness :
    ({ soupFail with expressions := [] } : Soup).expressions.length + 2 =
        soupFail.expressions.length ∧
    ({ soupFail with expressions := [] } : Soup) =
      { soupFail with
          expressions := ({ soupFail with expressions := [] } : Soup).expressions } ∧
    ∃ left right,
      (left :: right :: ({ soupFail with expressions := [] } : Soup).expressions).Perm
        soupFail.expressions :=
  @C10_soft_failure_frame soupFail zeroRng { soupFail with expressions := [] }
    ⟨zeroStream, 2⟩ rfl

end Supercollider
